import Mathlib

/-!
# Verification of the OpenAnime release-server publisher

A shallow embedding of `src/index.ts` (class `PublisherOpenAnime`, the
refactored variant built around the helper methods `extractChannel`,
`extractVersion`, `createRelease`, `doesAssetExist` and `uploadAsset`).

Modelling conventions:
* JavaScript strings are Lean `String`s; the string helpers the code relies
  on (`String.prototype.includes`, `String.prototype.replace` with a plain
  string pattern, `path.basename`, `String.prototype.toLowerCase`) are
  embedded as executable functions over `List Char`.
* The HTTP side effects of a publish run are reified as a trace: the publish
  model returns the list of requests the code would issue, in order, each
  carrying the headers and payload fields the source attaches to it.
* Server behaviour is an explicit oracle (`ServerState`): the jwt returned
  by `POST /login` (`none` models a login failure, i.e. the promise
  rejecting), the release list returned by `GET /releases`, the status code
  of `POST /releases`, the size `statSync` reports for a path, and the
  success of each chunk `POST` (per artifact path and 0-based chunk index).
* A missing optional configuration field is `none`; a missing required
  string field is modelled as the empty string, which is exactly the falsy
  case the source's `if (!baseUrl || !username || !password)` guard tests.
-/

/-- JS `haystack.includes(needle)` over character lists: `true` iff `pat`
occurs as a contiguous substring (the empty pattern always occurs). -/
def strIncludesAux (pat : List Char) : List Char → Bool
  | [] => pat.isEmpty
  | c :: rest => pat.isPrefixOf (c :: rest) || strIncludesAux pat rest

/-- JS `s.includes(sub)` (substring test). -/
def strIncludes (s sub : String) : Bool :=
  strIncludesAux sub.data s.data

/-- JS `s.replace(pat, '')` with a plain-string pattern, over character
lists: removes the first occurrence of `pat`, leaves the list unchanged
when `pat` does not occur. -/
def replaceFirstAux (pat : List Char) : List Char → List Char
  | [] => []
  | c :: rest =>
    if pat.isPrefixOf (c :: rest) then (c :: rest).drop pat.length
    else c :: replaceFirstAux pat rest

/-- JS `s.replace(pat, '')` with a plain-string pattern. -/
def replaceFirst (s pat : String) : String :=
  String.mk (replaceFirstAux pat.data s.data)

/-- `basename` from `pathe` / `node:path` (posix): the last `/`-separated
segment of the path. The artifact paths the publisher receives are plain
file paths without a trailing separator. -/
def basename (p : String) : String :=
  String.mk ((p.data.reverse.takeWhile (fun c => c ≠ '/')).reverse)

/-- JS `s.toLowerCase()` for the ASCII file names the publisher compares. -/
def toLowerStr (s : String) : String :=
  String.mk (s.data.map Char.toLower)

/-- `extractChannel(version)`, verbatim from the source:
`['stable', 'beta', 'alpha', 'rc'].find((c) => version.includes(c))`.
JS `Array.prototype.find` evaluates to `undefined` when no element
matches, modelled as `none`; the source hides this with a cast
`as ReleaseChannel`. -/
def extractChannel (version : String) : Option String :=
  ["stable", "beta", "alpha", "rc"].find? (fun c => strIncludes version c)

/-- `extractVersion(version, channel)`:
`version.replace('-' + channel, '')` (template literal in the source). -/
def extractVersion (version channel : String) : String :=
  replaceFirst version ("-" ++ channel)

/-- `ReleaseAsset` from the source: the identity key of an uploaded asset. -/
structure ReleaseAsset where
  name : String
  platform : String
deriving DecidableEq

/-- `ReleaseInfo` from the source: a server-owned release record. -/
structure ReleaseInfo where
  version : String
  channel : String
  changeLog : String
  createdAt : String
  assets : List ReleaseAsset
deriving DecidableEq

/-- `doesAssetExist(existingRelease, fileName, platform)`:
`existingRelease.assets.some((asset) => asset.name === fileName && asset.platform === platform)`. -/
def doesAssetExist (existingRelease : ReleaseInfo) (fileName platform : String) : Bool :=
  existingRelease.assets.any fun asset =>
    asset.name == fileName && asset.platform == platform

/-- `Math.ceil(a / b)` for natural `a` and positive natural `b`, as computed
by `Math.ceil(statSync(path).size / fileChunkSize)`. -/
def jsCeilDiv (a b : Nat) : Nat :=
  a / b + (if a % b = 0 then 0 else 1)

/-- Bytes returned by
`readSync(fd, buffer, { length: chunkSize, position: i * chunkSize })` on a
file of `fileSize` bytes, after the `buffer.subarray(0, bytesRead)`
truncation: the read delivers `chunkSize` bytes unless fewer remain. -/
def chunkBytes (fileSize chunkSize i : Nat) : Nat :=
  min chunkSize (fileSize - i * chunkSize)

/-- One chunk upload request: the multipart `POST
/releases/{channel}/{version}/assets` built in the chunk loop, with the
form fields (`currentChunk`, `totalChunks`, `platform`, the chunk payload
and its file name) and the `Authorization` header value. -/
structure ChunkRequest where
  channel : String
  version : String
  currentChunk : Nat
  totalChunks : Nat
  platform : String
  bytes : Nat
  fileName : String
  auth : String
deriving DecidableEq

/-- The request the chunk loop builds for 0-based index `i`:
`currentChunk` is `i + 1`, the payload is the `readSync` result. -/
def mkChunkRequest (fileSize fileChunkSize totalChunks : Nat)
    (fileName version channel platform jwt : String) (i : Nat) : ChunkRequest :=
  { channel := channel
    version := version
    currentChunk := i + 1
    totalChunks := totalChunks
    platform := platform
    bytes := chunkBytes fileSize fileChunkSize i
    fileName := fileName
    auth := jwt }

/-- The sequential `for (let i = 0; i < totalChunks; i++)` loop of
`uploadAsset`: each index issues its POST; a failing POST makes the
method return `false` at once (the failing request was still issued),
otherwise the loop continues and finally returns `true`. -/
def uploadLoop (mk : Nat → ChunkRequest) (postOk : Nat → Bool) :
    List Nat → List ChunkRequest × Bool
  | [] => ([], true)
  | i :: rest =>
    if postOk i then
      let r := uploadLoop mk postOk rest
      (mk i :: r.1, r.2)
    else ([mk i], false)

/-- `uploadAsset(apiClient, artifactPath, fileName, version, channel,
platform, jwt, chunkSizeMb)`: chunk size is `chunkSizeMb * 1024 * 1024`
bytes, `totalChunks = Math.ceil(fileSize / fileChunkSize)`; returns the
chunk requests issued, in order, and the boolean result. `postOk i` is the
oracle for whether the POST of 0-based chunk `i` succeeds. -/
def uploadAsset (fileSize : Nat) (fileName version channel platform jwt : String)
    (chunkSizeMb : Nat) (postOk : Nat → Bool) : List ChunkRequest × Bool :=
  uploadLoop
    (mkChunkRequest fileSize (chunkSizeMb * 1024 * 1024)
      (jsCeilDiv fileSize (chunkSizeMb * 1024 * 1024)) fileName version channel platform jwt)
    postOk
    (List.range (jsCeilDiv fileSize (chunkSizeMb * 1024 * 1024)))

/-- An HTTP request issued during a publish run, with the data the source
attaches to it. `createRelease` carries the body fields and the
`Authorization` header; the channel in its body is the possibly-`undefined`
resolved channel. -/
inductive ApiRequest where
  | login (username password : String)
  | listReleases
  | createRelease (version : String) (channel : Option String) (changeLog : String) (auth : String)
  | uploadChunk (req : ChunkRequest)
deriving DecidableEq

/-- The `Authorization` header each call is sent with: `POST /login` and
`GET /releases` are issued without a headers object in the source;
`POST /releases` and the chunk POSTs set `Authorization: jwt`. -/
def ApiRequest.authHeader : ApiRequest → Option String
  | ApiRequest.login _ _ => none
  | ApiRequest.listReleases => none
  | ApiRequest.createRelease _ _ _ a => some a
  | ApiRequest.uploadChunk c => some c.auth

/-- `PublisherOpenAnimeConfig`. The required string fields are modelled as
plain strings, with `""` standing for an absent (falsy) value. -/
structure PublisherOpenAnimeConfig where
  baseUrl : String
  username : String
  password : String
  channel : Option String
  chunkSizeInMb : Option Nat

/-- One make-result from the host build tool: the package version, the
artifact paths and the target platform. -/
structure MakeResult where
  version : String
  artifacts : List String
  platform : String

/-- The server/filesystem oracle for one publish run. -/
structure ServerState where
  loginJwt : Option String
  releases : List ReleaseInfo
  createStatus : Nat
  statSize : String → Nat
  postOk : String → Nat → Bool

/-- What processing one artifact contributes: its chunk requests, how often
it bumps the shared `uploadedCount` counter, and its log lines. -/
structure ArtifactOutcome where
  chunkRequests : List ChunkRequest
  increments : Nat
  logs : List String
deriving DecidableEq

/-- The observable output of a publish run: the HTTP requests in order, the
status lines reported through `setStatusLine`, and the log lines. -/
structure RunOutput where
  requests : List ApiRequest
  statusLines : List String
  logs : List String
deriving DecidableEq

/-- The artifact filter of `publish`:
`artifacts.filter((artifactPath) => basename(artifactPath).toLowerCase() !== 'releases')`. -/
def filterArtifacts (artifacts : List String) : List String :=
  artifacts.filter fun artifactPath => toLowerStr (basename artifactPath) != "releases"

/-- `configuredChannel ?? this.extractChannel(packageJSON.version)`: the
explicit configuration wins; otherwise whatever `extractChannel` yields,
including `none` (JS `undefined`) when nothing matches. -/
def resolvedChannel (configChannel : Option String) (rawVersion : String) : Option String :=
  match configChannel with
  | some c => some c
  | none => extractChannel rawVersion

/-- JS template-literal interpolation of the resolved channel: an
`undefined` channel is stringified as `"undefined"` when spliced into
`'-' + channel` and `/releases/{channel}/{version}/assets`. -/
def channelString : Option String → String
  | some c => c
  | none => "undefined"

/-- `releases.find((release) => release.version === version && release.channel === channel)`.
Comparing the string field `release.channel` with an `undefined` channel is
always `false` in JS, hence the `Option` comparison. -/
def findExistingRelease (releases : List ReleaseInfo) (version : String)
    (channel : Option String) : Option ReleaseInfo :=
  releases.find? fun release =>
    release.version == version && (some release.channel == channel)

/-- `createRelease`'s logging: a 201 response logs success, anything else
(non-201 status or a rejected promise) is caught and logged as an error;
either way the method returns normally. -/
def createReleaseLog (createStatus : Nat) (version : String) : List String :=
  if createStatus = 201 then ["Release " ++ version ++ " created successfully"]
  else ["Failed to create release on the server"]

/-- The body of the `validArtifacts.map(async (artifactPath) => ...)`
closure: skip (with one counter bump) when the asset already exists on the
resolved release, otherwise run `uploadAsset` and bump the counter once,
logging success or failure from its boolean result. -/
def processArtifact (existingRelease : Option ReleaseInfo)
    (platform channel version jwt : String) (chunkSizeMb : Nat)
    (statSize : String → Nat) (postOk : String → Nat → Bool)
    (artifactPath : String) : ArtifactOutcome :=
  let fileName := basename artifactPath
  let skip := match existingRelease with
    | some release => doesAssetExist release fileName platform
    | none => false
  if skip then
    { chunkRequests := []
      increments := 1
      logs := ["Asset " ++ fileName ++ " already exists on the server"] }
  else
    let result := uploadAsset (statSize artifactPath) fileName version channel platform jwt
      chunkSizeMb (postOk artifactPath)
    { chunkRequests := result.1
      increments := 1
      logs := [if result.2 then "Asset " ++ fileName ++ " uploaded successfully"
               else "Failed to upload asset " ++ fileName] }

/-- One iteration of `for (const makeResult of makeResults)`: filter the
artifacts, resolve channel and version, fetch the release list, create the
release when no existing one matches (its outcome only logged), then
process every remaining artifact, reporting
`Uploading artifact (k/n)` with the pre-incremented shared counter. -/
def processMakeResult (configChannel : Option String) (chunkSizeMb : Nat)
    (srv : ServerState) (jwt : String) (mr : MakeResult) : RunOutput :=
  let validArtifacts := filterArtifacts mr.artifacts
  let channel := resolvedChannel configChannel mr.version
  let channelStr := channelString channel
  let version := extractVersion mr.version channelStr
  let existingRelease := findExistingRelease srv.releases version channel
  let createRequests := match existingRelease with
    | some _ => []
    | none => [ApiRequest.createRelease version channel "Electron Forge Release" jwt]
  let createLogs := match existingRelease with
    | some _ => []
    | none => createReleaseLog srv.createStatus version
  let outcomes := validArtifacts.map
    (processArtifact existingRelease mr.platform channelStr version jwt chunkSizeMb
      srv.statSize srv.postOk)
  let totalIncrements := (outcomes.map ArtifactOutcome.increments).sum
  { requests := ApiRequest.listReleases ::
      createRequests ++ (outcomes.map ArtifactOutcome.chunkRequests).flatten.map ApiRequest.uploadChunk
    statusLines := (List.range totalIncrements).map fun k =>
      "Uploading artifact (" ++ toString (k + 1) ++ "/" ++ toString validArtifacts.length ++ ")"
    logs := createLogs ++ (outcomes.map ArtifactOutcome.logs).flatten }

/-- `publish({ makeResults, setStatusLine })`: the missing-credential guard
returns before any request; a failed login aborts the run inside the outer
`catch`; otherwise every make-result is processed in order with the one jwt
obtained from `POST /login`. -/
def publish (config : PublisherOpenAnimeConfig) (makeResults : List MakeResult)
    (srv : ServerState) : RunOutput :=
  if config.baseUrl == "" || config.username == "" || config.password == "" then
    { requests := []
      statusLines := []
      logs := ["Missing required configuration options for release server"] }
  else
    match srv.loginJwt with
    | none =>
      { requests := [ApiRequest.login config.username config.password]
        statusLines := []
        logs := ["Attempting to authenticate with release server",
                 "Invalid credentials for release server"] }
    | some jwt =>
      let results := makeResults.map
        (processMakeResult config.channel (config.chunkSizeInMb.getD 10) srv jwt)
      { requests := ApiRequest.login config.username config.password ::
          (results.map RunOutput.requests).flatten
        statusLines := (results.map RunOutput.statusLines).flatten
        logs := "Attempting to authenticate with release server" ::
          (results.map RunOutput.logs).flatten }

/-- The authorization layout §3 of the spec describes, written from its
words for comparison with `ApiRequest.authHeader`: the session token "passed
as an authorization header on every subsequent call" after login, i.e. on
everything the run issues once the jwt is known. The amended form proved
below exempts the release list query, which the source sends bare. -/
def expectedAuthHeader (jwt : String) : ApiRequest → Option String
  | ApiRequest.login _ _ => none
  | ApiRequest.listReleases => none
  | ApiRequest.createRelease _ _ _ _ => some jwt
  | ApiRequest.uploadChunk _ => some jwt

/-- If every POST in sight succeeds, the chunk loop issues one request per
index, in order. -/
theorem uploadLoop_all_ok (mk : Nat → ChunkRequest) (postOk : Nat → Bool) (l : List Nat)
    (h : ∀ i ∈ l, postOk i = true) : uploadLoop mk postOk l = (l.map mk, true) := by
  induction l with
  | nil => rfl
  | cons i rest ih =>
    have hi : postOk i = true := h i (List.mem_cons_self i rest)
    simp [uploadLoop, hi, ih fun j hj => h j (List.mem_cons_of_mem i hj)]

/-- If the indices before `j` succeed and `j` fails, the loop issues exactly
the requests up to and including `j` and returns `false`. -/
theorem uploadLoop_append_fail (mk : Nat → ChunkRequest) (postOk : Nat → Bool)
    (l₁ l₂ : List Nat) (j : Nat) (h₁ : ∀ i ∈ l₁, postOk i = true) (hj : postOk j = false) :
    uploadLoop mk postOk (l₁ ++ j :: l₂) = (l₁.map mk ++ [mk j], false) := by
  induction l₁ with
  | nil => simp [uploadLoop, hj]
  | cons i rest ih =>
    have hi : postOk i = true := h₁ i (List.mem_cons_self i rest)
    simp [uploadLoop, hi, ih fun k hk => h₁ k (List.mem_cons_of_mem i hk)]

/-- A `true` result means every index in the list had a successful POST. -/
theorem uploadLoop_ok_all (mk : Nat → ChunkRequest) (postOk : Nat → Bool) (l : List Nat)
    (h : (uploadLoop mk postOk l).2 = true) : ∀ i ∈ l, postOk i = true := by
  induction l with
  | nil => simp
  | cons i rest ih =>
    by_cases hi : postOk i = true
    · intro k hk
      rcases List.mem_cons.mp hk with rfl | hk'
      · exact hi
      · refine ih ?_ k hk'
        simpa [uploadLoop, hi] using h
    · rw [uploadLoop, if_neg hi] at h
      simp at h

/-- Every request the loop issues is the request built for some index of the
list. -/
theorem uploadLoop_mem (mk : Nat → ChunkRequest) (postOk : Nat → Bool) (l : List Nat) :
    ∀ c ∈ (uploadLoop mk postOk l).1, ∃ i ∈ l, c = mk i := by
  induction l with
  | nil => simp [uploadLoop]
  | cons i rest ih =>
    intro c hc
    by_cases hi : postOk i = true
    · rw [uploadLoop, if_pos hi] at hc
      rcases List.mem_cons.mp hc with rfl | hc'
      · exact ⟨i, List.mem_cons_self i rest, rfl⟩
      · obtain ⟨k, hk, rfl⟩ := ih c hc'
        exact ⟨k, List.mem_cons_of_mem i hk, rfl⟩
    · rw [uploadLoop, if_neg hi] at hc
      rcases List.mem_cons.mp hc with rfl | hc'
      · exact ⟨i, List.mem_cons_self i rest, rfl⟩
      · simp at hc'

/-- Ceiling division covers the dividend: `a ≤ ⌈a/b⌉ * b`. -/
theorem le_jsCeilDiv_mul (a b : Nat) (hb : 0 < b) : a ≤ jsCeilDiv a b * b := by
  have hd := Nat.div_add_mod a b
  have hm := Nat.mod_lt a hb
  by_cases h0 : a % b = 0
  · rw [jsCeilDiv, if_pos h0, Nat.add_zero, Nat.mul_comm]
    omega
  · rw [jsCeilDiv, if_neg h0, Nat.add_mul, Nat.one_mul, Nat.mul_comm]
    omega

/-- All chunks but the last start strictly inside the file:
`(⌈a/b⌉ - 1) * b < a`. -/
theorem jsCeilDiv_pred_mul_lt (a b : Nat) (hb : 0 < b) (ha : 0 < a) :
    (jsCeilDiv a b - 1) * b < a := by
  have hd := Nat.div_add_mod a b
  by_cases h0 : a % b = 0
  · rw [jsCeilDiv, if_pos h0, Nat.add_zero, Nat.sub_mul, Nat.one_mul, Nat.mul_comm]
    omega
  · rw [jsCeilDiv, if_neg h0, Nat.add_sub_cancel, Nat.mul_comm]
    omega

/-- A non-empty file yields at least one chunk. -/
theorem jsCeilDiv_pos (a b : Nat) (ha : 0 < a) : 0 < jsCeilDiv a b := by
  rw [jsCeilDiv]
  by_cases h0 : a % b = 0
  · rw [if_pos h0]
    rcases Nat.eq_zero_or_pos b with rfl | hb
    · rw [Nat.mod_zero] at h0
      omega
    · have := Nat.div_pos (Nat.le_of_dvd ha (Nat.dvd_of_mod_eq_zero h0)) hb
      omega
  · rw [if_neg h0]
    exact Nat.succ_pos _

/-- Adding one to each element of `range n` gives the 1-based run
`[1, ..., n]`. -/
theorem range_map_add_one (n : Nat) :
    (List.range n).map (fun i => i + 1) = List.range' 1 n := by
  induction n with
  | zero => rfl
  | succ n ih =>
    rw [List.range_succ, List.map_append, ih, List.range'_concat]
    simp [Nat.add_comm]

/-- `replace(pat, '')` is the identity when `pat` does not occur. -/
theorem replaceFirstAux_of_not_included (pat : List Char) (s : List Char)
    (h : strIncludesAux pat s = false) : replaceFirstAux pat s = s := by
  induction s with
  | nil => rfl
  | cons c rest ih =>
    rw [strIncludesAux] at h
    rw [Bool.or_eq_false_iff] at h
    rw [replaceFirstAux, if_neg (by simp [h.1]), ih h.2]

/-- The byte count `readSync` delivers for chunk `i` of a file of `S` bytes:
the full chunk size everywhere but the last index, the remainder there. -/
theorem chunkBytes_spec (S C i : Nat) (hC : 0 < C) (hS : 0 < S) (hi : i < jsCeilDiv S C) :
    chunkBytes S C i = if i + 1 = jsCeilDiv S C then S - C * (jsCeilDiv S C - 1) else C := by
  have h1 : S ≤ jsCeilDiv S C * C := le_jsCeilDiv_mul S C hC
  have h2 : (jsCeilDiv S C - 1) * C < S := jsCeilDiv_pred_mul_lt S C hC hS
  rw [chunkBytes]
  by_cases hlast : i + 1 = jsCeilDiv S C
  · rw [if_pos hlast]
    have hti : jsCeilDiv S C - 1 = i := by omega
    rw [hti] at h2 ⊢
    rw [Nat.mul_comm C i]
    rw [← hlast] at h1
    rw [Nat.succ_mul] at h1
    omega
  · rw [if_neg hlast]
    have hi1 : i + 1 ≤ jsCeilDiv S C - 1 := by omega
    have h3 : (i + 1) * C ≤ (jsCeilDiv S C - 1) * C := Nat.mul_le_mul_right C hi1
    rw [Nat.succ_mul] at h3
    omega

/-- Claim C1: for a file of `S > 0` bytes and a positive chunk size
`C = chunkSizeInMb * 1024 * 1024`, when every chunk POST succeeds the
uploader issues exactly `ceil(S / C)` chunk requests; the `currentChunk`
values sent are the 1-based strictly increasing run `1, ..., totalChunks`
in issue order; every chunk carries exactly `C` bytes except the last,
which carries `S - C * (totalChunks - 1)` bytes. -/
theorem uploadAsset_chunk_layout (fileSize chunkSizeMb : Nat)
    (fileName version channel platform jwt : String) (postOk : Nat → Bool)
    (hS : 0 < fileSize) (hC : 0 < chunkSizeMb) (hok : ∀ i, postOk i = true) :
    (uploadAsset fileSize fileName version channel platform jwt chunkSizeMb postOk).1.length =
      jsCeilDiv fileSize (chunkSizeMb * 1024 * 1024) ∧
    (uploadAsset fileSize fileName version channel platform jwt chunkSizeMb postOk).1.map
        ChunkRequest.currentChunk =
      List.range' 1 (jsCeilDiv fileSize (chunkSizeMb * 1024 * 1024)) ∧
    (uploadAsset fileSize fileName version channel platform jwt chunkSizeMb postOk).1.map
        ChunkRequest.bytes =
      (List.range (jsCeilDiv fileSize (chunkSizeMb * 1024 * 1024))).map fun i =>
        if i + 1 = jsCeilDiv fileSize (chunkSizeMb * 1024 * 1024) then
          fileSize - (chunkSizeMb * 1024 * 1024) *
            (jsCeilDiv fileSize (chunkSizeMb * 1024 * 1024) - 1)
        else chunkSizeMb * 1024 * 1024 := by
  have hC' : 0 < chunkSizeMb * 1024 * 1024 :=
    Nat.mul_pos (Nat.mul_pos hC (by norm_num)) (by norm_num)
  have hreq : uploadAsset fileSize fileName version channel platform jwt chunkSizeMb postOk =
      ((List.range (jsCeilDiv fileSize (chunkSizeMb * 1024 * 1024))).map
        (mkChunkRequest fileSize (chunkSizeMb * 1024 * 1024)
          (jsCeilDiv fileSize (chunkSizeMb * 1024 * 1024)) fileName version channel platform jwt),
        true) := by
    rw [uploadAsset]
    exact uploadLoop_all_ok _ _ _ fun i _ => hok i
  refine ⟨?_, ?_, ?_⟩
  · rw [hreq]
    simp
  · rw [hreq]
    simp only [List.map_map]
    have : (ChunkRequest.currentChunk ∘
        mkChunkRequest fileSize (chunkSizeMb * 1024 * 1024)
          (jsCeilDiv fileSize (chunkSizeMb * 1024 * 1024)) fileName version channel platform jwt) =
        fun i => i + 1 := by
      funext i
      rfl
    rw [this, range_map_add_one]
  · rw [hreq]
    simp only [List.map_map]
    apply List.map_congr_left
    intro i hi
    have hi' : i < jsCeilDiv fileSize (chunkSizeMb * 1024 * 1024) := List.mem_range.mp hi
    show chunkBytes fileSize (chunkSizeMb * 1024 * 1024) i = _
    exact chunkBytes_spec fileSize (chunkSizeMb * 1024 * 1024) i hC' hS hi'

/-- Witness for C1: a 2 MiB + 5 byte file with 1 MiB chunks gives three
requests of 1048576, 1048576 and 5 bytes, numbered 1, 2, 3. -/
theorem uploadAsset_chunk_layout_witness :
    (uploadAsset 2097157 "app.zip" "1.0.0" "stable" "win32" "tok" 1 (fun _ => true)).1.length = 3 ∧
    (uploadAsset 2097157 "app.zip" "1.0.0" "stable" "win32" "tok" 1
        (fun _ => true)).1.map ChunkRequest.currentChunk = [1, 2, 3] ∧
    (uploadAsset 2097157 "app.zip" "1.0.0" "stable" "win32" "tok" 1
        (fun _ => true)).1.map ChunkRequest.bytes = [1048576, 1048576, 5] := by
  have h := uploadAsset_chunk_layout 2097157 1 "app.zip" "1.0.0" "stable" "win32" "tok"
    (fun _ => true) (by decide) (by decide) (fun i => rfl)
  refine ⟨h.1.trans (by decide), h.2.1.trans (by decide), h.2.2.trans (by decide)⟩

/-- `range t` split at an interior index `j`. -/
theorem range_split_at (t j : Nat) (hj : j < t) :
    List.range t = List.range j ++ j :: (List.range (t - (j + 1))).map (fun k => j + 1 + k) := by
  have ht : t = (j + 1) + (t - (j + 1)) := by omega
  calc List.range t = List.range ((j + 1) + (t - (j + 1))) := by rw [← ht]
    _ = List.range (j + 1) ++ (List.range (t - (j + 1))).map (fun k => j + 1 + k) := by
        rw [List.range_add]
    _ = List.range j ++ j :: (List.range (t - (j + 1))).map (fun k => j + 1 + k) := by
        rw [List.range_succ, List.append_assoc]
        rfl

/-- Claim C2: if the POST of 0-based chunk `j` fails after all earlier
chunks succeeded, `uploadAsset` returns `false` and the requests issued are
exactly chunks `1, ..., j + 1` — no chunk with a higher index is attempted;
and the method returns `true` only when every chunk POST succeeded. -/
theorem uploadAsset_failure_semantics (fileSize chunkSizeMb : Nat)
    (fileName version channel platform jwt : String) (postOk : Nat → Bool) (j : Nat)
    (hj : j < jsCeilDiv fileSize (chunkSizeMb * 1024 * 1024))
    (hfail : postOk j = false) (hpre : ∀ k, k < j → postOk k = true) :
    (uploadAsset fileSize fileName version channel platform jwt chunkSizeMb postOk).2 = false ∧
    (uploadAsset fileSize fileName version channel platform jwt chunkSizeMb postOk).1.length =
      j + 1 ∧
    (uploadAsset fileSize fileName version channel platform jwt chunkSizeMb postOk).1.map
        ChunkRequest.currentChunk = List.range' 1 (j + 1) ∧
    ∀ pOk : Nat → Bool,
      (uploadAsset fileSize fileName version channel platform jwt chunkSizeMb pOk).2 = true →
      ∀ i, i < jsCeilDiv fileSize (chunkSizeMb * 1024 * 1024) → pOk i = true := by
  have hreq : uploadAsset fileSize fileName version channel platform jwt chunkSizeMb postOk =
      ((List.range j).map
          (mkChunkRequest fileSize (chunkSizeMb * 1024 * 1024)
            (jsCeilDiv fileSize (chunkSizeMb * 1024 * 1024)) fileName version channel platform
            jwt) ++
        [mkChunkRequest fileSize (chunkSizeMb * 1024 * 1024)
          (jsCeilDiv fileSize (chunkSizeMb * 1024 * 1024)) fileName version channel platform jwt
          j],
        false) := by
    rw [uploadAsset, range_split_at _ j hj]
    exact uploadLoop_append_fail _ _ _ _ _ (fun i hi => hpre i (List.mem_range.mp hi)) hfail
  refine ⟨by rw [hreq], ?_, ?_, ?_⟩
  · rw [hreq]
    simp
  · rw [hreq]
    simp only [List.map_append, List.map_map, List.map_cons, List.map_nil]
    have h1 : (ChunkRequest.currentChunk ∘
        mkChunkRequest fileSize (chunkSizeMb * 1024 * 1024)
          (jsCeilDiv fileSize (chunkSizeMb * 1024 * 1024)) fileName version channel platform jwt) =
        fun i => i + 1 := by
      funext i
      rfl
    rw [h1]
    have h2 : (List.range (j + 1)).map (fun i => i + 1) = List.range' 1 (j + 1) :=
      range_map_add_one (j + 1)
    rw [List.range_succ, List.map_append] at h2
    simpa using h2
  · intro pOk hok i hi
    rw [uploadAsset] at hok
    exact uploadLoop_ok_all _ _ _ hok i (List.mem_range.mpr hi)

/-- Witness for C2: with 1 MiB chunks on a 2 MiB + 5 byte file (3 chunks)
and the POST of 0-based chunk 1 failing, the call returns `false` after
issuing exactly chunks 1 and 2. -/
theorem uploadAsset_failure_semantics_witness :
    (uploadAsset 2097157 "app.zip" "1.0.0" "stable" "win32" "tok" 1
        (fun i => decide (i = 0))).2 = false ∧
    (uploadAsset 2097157 "app.zip" "1.0.0" "stable" "win32" "tok" 1
        (fun i => decide (i = 0))).1.length = 2 ∧
    (uploadAsset 2097157 "app.zip" "1.0.0" "stable" "win32" "tok" 1
        (fun i => decide (i = 0))).1.map ChunkRequest.currentChunk = List.range' 1 2 := by
  have h := uploadAsset_failure_semantics 2097157 1 "app.zip" "1.0.0" "stable" "win32" "tok"
    (fun i => decide (i = 0)) 1 (by decide) (by decide)
    (fun k hk => by
      have hk0 : k = 0 := Nat.lt_one_iff.mp hk
      subst hk0
      rfl)
  exact ⟨h.1, h.2.1, h.2.2.1⟩

/-- Claim C3 (code bug): on a version string containing none of the four
channel names, `extractChannel` — the code's `Array.prototype.find` with no
default — yields `undefined` (`none`), not the `"stable"` the spec and the
function's own declared return type `ReleaseChannel` require; the ordered
first-substring-match behaviour for matching inputs is as specified, with
`"stable"` checked first. -/
theorem extractChannel_undefined_on_no_match :
    extractChannel "1.2.3" = none ∧
    extractChannel "1.2.3" ≠ some "stable" ∧
    extractChannel "1.2.3-beta" = some "beta" ∧
    extractChannel "1.2.3-alpha" = some "alpha" ∧
    extractChannel "1.2.3-rc.1" = some "rc" ∧
    extractChannel "1.2.3-stable" = some "stable" := by
  decide

/-- Claim C4: when `baseUrl`, `username` or `password` is missing (falsy),
`publish` reports the configuration error and returns before any network
call: the request trace is empty. -/
theorem publish_missing_config_no_requests (config : PublisherOpenAnimeConfig)
    (makeResults : List MakeResult) (srv : ServerState)
    (h : config.baseUrl = "" ∨ config.username = "" ∨ config.password = "") :
    (publish config makeResults srv).requests = [] ∧
    (publish config makeResults srv).logs =
      ["Missing required configuration options for release server"] := by
  rcases h with h | h | h <;> simp [publish, h]

/-- Witness for C4: a missing username yields an empty request trace and
the configuration error log. -/
theorem publish_missing_config_no_requests_witness :
    (publish ⟨"https://u", "", "pw", none, none⟩ []
        ⟨some "tok", [], 201, fun _ => 1, fun _ _ => true⟩).requests = [] ∧
    (publish ⟨"https://u", "", "pw", none, none⟩ []
        ⟨some "tok", [], 201, fun _ => 1, fun _ _ => true⟩).logs =
      ["Missing required configuration options for release server"] :=
  publish_missing_config_no_requests _ _ _ (Or.inr (Or.inl rfl))

/-- Claim C5 counterexample: an artifact whose base file name is
`manifest-releases` is NOT dropped by the artifact filter — the filter only
excludes a base name equal (case-insensitively) to `releases`, and
`manifest-releases` is not equal to it. -/
theorem filterArtifacts_keeps_manifest_releases :
    filterArtifacts ["out/make/manifest-releases"] = ["out/make/manifest-releases"] ∧
    basename "out/make/manifest-releases" = "manifest-releases" := by
  decide

/-- Claim C5 (amended): an artifact survives the filter iff its base file
name, lower-cased, differs from the exact sentinel `releases`; a
`RELEASES` file of any casing is dropped, everything else is kept. -/
theorem filterArtifacts_sentinel :
    (∀ (paths : List String) (p : String),
      p ∈ filterArtifacts paths ↔ p ∈ paths ∧ toLowerStr (basename p) ≠ "releases") ∧
    filterArtifacts ["path/to/RELEASES", "app.zip"] = ["app.zip"] ∧
    filterArtifacts ["releases"] = [] := by
  refine ⟨?_, by decide, by decide⟩
  intro paths p
  simp [filterArtifacts, List.mem_filter]

/-- Claim C6: an artifact whose base name and platform match an asset of
the resolved release is skipped — zero chunk requests — while the shared
progress counter is still bumped exactly once; and `doesAssetExist` holds
iff some asset of the release matches on both name and platform. -/
theorem processArtifact_skip_existing (existingRelease : ReleaseInfo)
    (platform channel version jwt : String) (chunkSizeMb : Nat)
    (statSize : String → Nat) (postOk : String → Nat → Bool) (artifactPath : String)
    (h : doesAssetExist existingRelease (basename artifactPath) platform = true) :
    (processArtifact (some existingRelease) platform channel version jwt chunkSizeMb
        statSize postOk artifactPath).chunkRequests = [] ∧
    (processArtifact (some existingRelease) platform channel version jwt chunkSizeMb
        statSize postOk artifactPath).increments = 1 ∧
    (∀ (rel : ReleaseInfo) (n pf : String),
      doesAssetExist rel n pf = true ↔
        ∃ asset ∈ rel.assets, asset.name = n ∧ asset.platform = pf) := by
  refine ⟨?_, ?_, ?_⟩
  · simp [processArtifact, h]
  · simp [processArtifact, h]
  · intro rel n pf
    simp [doesAssetExist, List.any_eq_true]

/-- Witness for C6: `app.zip` for `win32` already present on the release is
skipped with one counter bump. -/
theorem processArtifact_skip_existing_witness :
    (processArtifact (some ⟨"1.0.0", "stable", "cl", "now", [⟨"app.zip", "win32"⟩]⟩)
        "win32" "stable" "1.0.0" "tok" 10 (fun _ => 999) (fun _ _ => true)
        "dist/app.zip").chunkRequests = [] ∧
    (processArtifact (some ⟨"1.0.0", "stable", "cl", "now", [⟨"app.zip", "win32"⟩]⟩)
        "win32" "stable" "1.0.0" "tok" 10 (fun _ => 999) (fun _ _ => true)
        "dist/app.zip").increments = 1 := by
  have h := processArtifact_skip_existing ⟨"1.0.0", "stable", "cl", "now", [⟨"app.zip", "win32"⟩]⟩
    "win32" "stable" "1.0.0" "tok" 10 (fun _ => 999) (fun _ _ => true) "dist/app.zip" (by decide)
  exact ⟨h.1, h.2.1⟩

/-- Claim C7 counterexample: the claim says the `-channel` suffix is removed
only when the channel is not `stable`, so `extractVersion("1.2.3-stable",
"stable")` would have to stay `"1.2.3-stable"`; the code removes the suffix
for every channel and returns `"1.2.3"`. -/
theorem extractVersion_removes_stable_suffix :
    extractVersion "1.2.3-stable" "stable" = "1.2.3" ∧
    extractVersion "1.2.3-stable" "stable" ≠ "1.2.3-stable" := by
  decide

/-- Claim C7 (amended): `extractVersion` removes the first literal
occurrence of `-channel` for every channel, including `stable`; when the
suffix does not occur the string is unchanged, and only the first
occurrence is removed. Both of the claim's named examples hold. -/
theorem extractVersion_first_occurrence :
    (∀ version channel : String, strIncludes version ("-" ++ channel) = false →
      extractVersion version channel = version) ∧
    extractVersion "1.2.3-beta" "beta" = "1.2.3" ∧
    extractVersion "1.2.3" "stable" = "1.2.3" ∧
    extractVersion "1.2.3-stable" "stable" = "1.2.3" ∧
    extractVersion "1.0.0-beta-beta" "beta" = "1.0.0-beta" := by
  refine ⟨?_, by decide, by decide, by decide, by decide⟩
  intro version channel h
  rw [extractVersion, replaceFirst, replaceFirstAux_of_not_included _ _ h]

/-- Witness for C7 (amended), at a version not containing the suffix. -/
theorem extractVersion_first_occurrence_witness :
    extractVersion "2.0.0" "rc" = "2.0.0" :=
  extractVersion_first_occurrence.1 "2.0.0" "rc" (by decide)

/-- Claim C8: when no existing release matches the derived version and
channel, a release-create request (with the fixed change log and the jwt)
is issued; the requests and status lines of the make-result are identical
for every create status — a creation failure is only logged — and a
non-201 status puts the failure message in the log. -/
theorem processMakeResult_create_release (configChannel : Option String) (chunkSizeMb : Nat)
    (srv : ServerState) (jwt : String) (mr : MakeResult)
    (h : findExistingRelease srv.releases
        (extractVersion mr.version (channelString (resolvedChannel configChannel mr.version)))
        (resolvedChannel configChannel mr.version) = none) :
    ApiRequest.createRelease
        (extractVersion mr.version (channelString (resolvedChannel configChannel mr.version)))
        (resolvedChannel configChannel mr.version) "Electron Forge Release" jwt ∈
      (processMakeResult configChannel chunkSizeMb srv jwt mr).requests ∧
    (∀ s₁ s₂ : Nat,
      (processMakeResult configChannel chunkSizeMb { srv with createStatus := s₁ } jwt
          mr).requests =
        (processMakeResult configChannel chunkSizeMb { srv with createStatus := s₂ } jwt
          mr).requests ∧
      (processMakeResult configChannel chunkSizeMb { srv with createStatus := s₁ } jwt
          mr).statusLines =
        (processMakeResult configChannel chunkSizeMb { srv with createStatus := s₂ } jwt
          mr).statusLines) ∧
    (srv.createStatus ≠ 201 →
      "Failed to create release on the server" ∈
        (processMakeResult configChannel chunkSizeMb srv jwt mr).logs) := by
  refine ⟨?_, ?_, ?_⟩
  · simp [processMakeResult, h]
  · intro s₁ s₂
    constructor <;> simp [processMakeResult]
  · intro hstatus
    simp [processMakeResult, h, createReleaseLog, hstatus]

/-- Witness for C8: with an empty release list and a rejecting create call
(status 500), the create request is still issued and the failure is logged
while the artifact is processed as usual. -/
theorem processMakeResult_create_release_witness :
    ApiRequest.createRelease "1.0.0" (some "stable") "Electron Forge Release" "tok" ∈
      (processMakeResult (some "stable") 1
        ⟨some "tok", [], 500, fun _ => 1, fun _ _ => true⟩ "tok"
        ⟨"1.0.0", ["app.zip"], "win32"⟩).requests ∧
    "Failed to create release on the server" ∈
      (processMakeResult (some "stable") 1
        ⟨some "tok", [], 500, fun _ => 1, fun _ _ => true⟩ "tok"
        ⟨"1.0.0", ["app.zip"], "win32"⟩).logs := by
  have h := processMakeResult_create_release (some "stable") 1
    ⟨some "tok", [], 500, fun _ => 1, fun _ _ => true⟩ "tok"
    ⟨"1.0.0", ["app.zip"], "win32"⟩ rfl
  exact ⟨h.1, h.2.2 (by decide)⟩

/-- Every chunk request `uploadAsset` issues carries the jwt it was given. -/
theorem uploadAsset_auth (fileSize : Nat) (fileName version channel platform jwt : String)
    (chunkSizeMb : Nat) (postOk : Nat → Bool) :
    ∀ c ∈ (uploadAsset fileSize fileName version channel platform jwt chunkSizeMb postOk).1,
      c.auth = jwt := by
  intro c hc
  rw [uploadAsset] at hc
  obtain ⟨i, _, rfl⟩ := uploadLoop_mem _ _ _ c hc
  rfl

/-- Every chunk request of one artifact carries the run's jwt. -/
theorem processArtifact_auth (existingRelease : Option ReleaseInfo)
    (platform channel version jwt : String) (chunkSizeMb : Nat)
    (statSize : String → Nat) (postOk : String → Nat → Bool) (artifactPath : String) :
    ∀ c ∈ (processArtifact existingRelease platform channel version jwt chunkSizeMb
        statSize postOk artifactPath).chunkRequests, c.auth = jwt := by
  intro c hc
  rcases existingRelease with _ | rel
  · simp only [processArtifact] at hc
    exact uploadAsset_auth _ _ _ _ _ _ _ _ c (by simpa using hc)
  · by_cases hd : doesAssetExist rel (basename artifactPath) platform = true
    · simp [processArtifact, hd] at hc
    · simp only [processArtifact] at hc
      rw [if_neg (by simpa using hd)] at hc
      exact uploadAsset_auth _ _ _ _ _ _ _ _ c (by simpa using hc)

/-- Every request of one make-result carries the header layout of
`expectedAuthHeader`. -/
theorem processMakeResult_auth (configChannel : Option String) (chunkSizeMb : Nat)
    (srv : ServerState) (jwt : String) (mr : MakeResult) :
    ∀ r ∈ (processMakeResult configChannel chunkSizeMb srv jwt mr).requests,
      r.authHeader = expectedAuthHeader jwt r := by
  intro r hr
  simp only [processMakeResult] at hr
  rcases List.mem_cons.mp hr with rfl | hr'
  · rfl
  rcases List.mem_append.mp hr' with hcr | hup
  · rcases hfind : findExistingRelease srv.releases
        (extractVersion mr.version (channelString (resolvedChannel configChannel mr.version)))
        (resolvedChannel configChannel mr.version) with _ | rel
    · rw [hfind] at hcr
      simp at hcr
      subst hcr
      rfl
    · rw [hfind] at hcr
      simp at hcr
  · obtain ⟨c, hc, rfl⟩ := List.mem_map.mp hup
    obtain ⟨l, hl, hcl⟩ := List.mem_flatten.mp hc
    obtain ⟨o, ho, rfl⟩ := List.mem_map.mp hl
    obtain ⟨a, _, rfl⟩ := List.mem_map.mp ho
    have hauth := processArtifact_auth _ _ _ _ _ _ _ _ _ c hcl
    show some c.auth = expectedAuthHeader jwt (ApiRequest.uploadChunk c)
    rw [hauth]
    rfl

/-- Claim C9 (amended): after a successful login, the jwt is sent as the
`Authorization` header on the release-create call and on every chunk upload
POST, and no other token ever appears; the login call and the release list
query are sent with no `Authorization` header at all. -/
theorem publish_auth_headers (config : PublisherOpenAnimeConfig)
    (makeResults : List MakeResult) (srv : ServerState) (jwt : String)
    (hjwt : srv.loginJwt = some jwt) :
    ∀ r ∈ (publish config makeResults srv).requests,
      r.authHeader = expectedAuthHeader jwt r := by
  intro r hr
  rw [publish] at hr
  by_cases hcfg : (config.baseUrl == "" || config.username == "" || config.password == "") = true
  · rw [if_pos hcfg] at hr
    simp at hr
  · rw [if_neg hcfg, hjwt] at hr
    rcases List.mem_cons.mp hr with rfl | hr'
    · rfl
    obtain ⟨l, hl, hrl⟩ := List.mem_flatten.mp hr'
    obtain ⟨o, ho, rfl⟩ := List.mem_map.mp hl
    obtain ⟨mr, _, rfl⟩ := List.mem_map.mp ho
    exact processMakeResult_auth _ _ _ _ _ r hrl

/-- Witness for C9 (amended): in a concrete run the create request carries
exactly the login jwt. -/
theorem publish_auth_headers_witness :
    ApiRequest.authHeader
        (ApiRequest.createRelease "1.0.0" (some "stable") "Electron Forge Release" "tok123") =
      some "tok123" :=
  publish_auth_headers ⟨"https://u", "admin", "pw", some "stable", some 1⟩
    [⟨"1.0.0", ["app.zip"], "win32"⟩]
    ⟨some "tok123", [], 201, fun _ => 5, fun _ _ => true⟩ "tok123" rfl _ (by decide)

/-- Claim C9 counterexample: the run's trace contains the release list
query, and that request is sent with no `Authorization` header — the
session token is not passed on every subsequent HTTP call. -/
theorem publish_list_request_unauthenticated :
    ApiRequest.listReleases ∈
      (publish ⟨"https://u", "admin", "pw", some "stable", some 1⟩
        [⟨"1.0.0", ["app.zip"], "win32"⟩]
        ⟨some "tok123", [], 201, fun _ => 5, fun _ _ => true⟩).requests ∧
    ApiRequest.authHeader ApiRequest.listReleases = none := by
  constructor
  · decide
  · rfl

/-- Claim C10: a configuration that omits `chunkSizeInMb` behaves exactly
like one that sets it to 10 — the destructuring default — and with
`chunkSizeMb = 10` a 25 MiB artifact is split into chunks of
`10 * 1024 * 1024` bytes (10 MiB, 10 MiB, 5 MiB). -/
theorem publish_default_chunk_size (config : PublisherOpenAnimeConfig)
    (makeResults : List MakeResult) (srv : ServerState)
    (h : config.chunkSizeInMb = none) :
    publish config makeResults srv =
      publish { config with chunkSizeInMb := some 10 } makeResults srv ∧
    (uploadAsset (25 * 1024 * 1024) "app.zip" "1.0.0" "stable" "win32" "tok" 10
        (fun _ => true)).1.map ChunkRequest.bytes = [10485760, 10485760, 5242880] := by
  refine ⟨?_, by decide⟩
  simp [publish, h]

/-- Witness for C10 at a concrete configuration with `chunkSizeInMb`
omitted. -/
theorem publish_default_chunk_size_witness :
    publish ⟨"https://u", "admin", "pw", some "stable", none⟩ []
        ⟨some "tok", [], 201, fun _ => 1, fun _ _ => true⟩ =
      publish ⟨"https://u", "admin", "pw", some "stable", some 10⟩ []
        ⟨some "tok", [], 201, fun _ => 1, fun _ _ => true⟩ :=
  (publish_default_chunk_size _ _ _ rfl).1
